import Mathlib

/-!
A shallow embedding of the pin lifecycle and interrupt-monitoring subsystem of
the sysfs GPIO library (module `sysfs/gpio.py`: class `Pin` and class
`Controller`).  The near-duplicate module `src/sysfs/gpio.py` agrees with the
primary module on all behaviour modelled here except where noted.

Modelling conventions:
* Python exceptions become an explicit error type `GpioError`.  The source
  raises bare `Exception` values with messages; each raise site is mapped to
  the error kind its message describes.  The raw dictionary lookup in
  `Controller.get_pin` raises `KeyError` when the number is absent from the
  allocated map; that registry-absence failure is modelled as `notAllocated`.
* Filesystem and epoll side effects become entries of an `Event` trace,
  emitted in the order the source performs them.  A failed write or open
  raises and emits no event.
* The surrounding OS (sysfs directory contents, outcomes of control-file
  writes, the descriptor returned by `open`, the integer parsed from reading
  a value descriptor) is a `World` record of pure functions.
* The `Controller` singleton's mutable attributes become a `CState` record
  threaded through the operations; the epoll registration set (keyed by
  descriptor) is a `Finset Nat`.
* Callbacks are opaque identifiers; a callback-semantics environment
  `cbSem : Nat → Nat → Int → Except GpioError Unit` says what invoking
  callback `cb` on `(number, state)` does (returning `.error _` models the
  callback raising).  All callback objects are callable and truthy, as
  function objects are in Python.
-/

set_option autoImplicit false

namespace SysfsGpio

/-- Tokens written to a value descriptor (source constants
`SYSFS_GPIO_VALUE_LOW` / `SYSFS_GPIO_VALUE_HIGH`). -/
def SYSFS_GPIO_VALUE_LOW : String := "0"

def SYSFS_GPIO_VALUE_HIGH : String := "1"

/-- `INPUT = 'in'`. -/
def INPUT : String := "in"

/-- `OUTPUT = 'out'`. -/
def OUTPUT : String := "out"

def RISING : String := "rising"

def FALLING : String := "falling"

def BOTH : String := "both"

def ACTIVE_LOW_ON : Nat := 1

def ACTIVE_LOW_OFF : Nat := 0

/-- `DIRECTIONS = (INPUT, OUTPUT)`. -/
def DIRECTIONS : List String := [INPUT, OUTPUT]

/-- `EDGES = (RISING, FALLING, BOTH)`. -/
def EDGES : List String := [RISING, FALLING, BOTH]

/-- `ACTIVE_LOW_MODES = (ACTIVE_LOW_ON, ACTIVE_LOW_OFF)`. -/
def ACTIVE_LOW_MODES : List Nat := [ACTIVE_LOW_ON, ACTIVE_LOW_OFF]

/-- `select.EPOLLPRI`. -/
def EPOLLPRI : Nat := 2

/-- `select.EPOLLET` (`1 <<< 31`). -/
def EPOLLET : Nat := 2147483648

/-- Error kinds for the bare `Exception` raise sites of the source (and the
`KeyError` of `get_pin`), named after the taxonomy their messages describe. -/
inductive GpioError where
  /-- "Pin number out of range" -/
  | outOfRange
  /-- "Pin already allocated" -/
  | alreadyAllocated
  /-- "Pin %d not allocated" (and the `KeyError` from the raw lookup in `get_pin`) -/
  | notAllocated
  /-- "Pin direction %s not in %s" -/
  | invalidDirection
  /-- "Pin edge %s not in %s" / "You must supply a edge to trigger callback on" -/
  | missingEdge
  /-- "You must supply a value for active_low which is either 0 or 1." -/
  | invalidPolarity
  /-- `IOError` writing the export control file -/
  | exportIOError
  /-- `IOError` opening the value descriptor -/
  | openIOError
  /-- `IOError` writing a per-pin control file (direction / edge / active_low) -/
  | configIOError
  /-- an exception raised by user callback `cb` -/
  | callbackError (cb : Nat)
deriving DecidableEq, Repr

/-- One observable side effect on the OS: a sysfs control-file write, a value
descriptor open/read/write, or an epoll registration change. -/
inductive Event where
  | writeExport (n : Nat)
  | writeUnexport (n : Nat)
  | openValue (n : Nat)
  | writeDirection (n : Nat) (d : String)
  | writeEdge (n : Nat) (e : String)
  | writeActiveLow (n : Nat) (v : Nat)
  | epollRegister (fd : Nat)
  | epollUnregister (fd : Nat)
  | readValue (fd : Nat)
  | writeValue (fd : Nat) (v : String)
deriving DecidableEq, Repr

/-- The OS as seen by the library: sysfs directory presence, the success of
each control-file operation, the descriptor assigned on open, and the integer
parsed from a read of a value descriptor. -/
structure World where
  /-- `os.path.isdir(SYSFS_GPIO_PATH % number)` -/
  exported : Nat → Bool
  /-- writing `number` to the export control file succeeds -/
  exportOk : Nat → Bool
  /-- `open(value_path, 'r+')` succeeds for pin `number` -/
  openOk : Nat → Bool
  /-- writing the direction control file succeeds -/
  directionOk : Nat → Bool
  /-- writing the edge control file succeeds -/
  edgeOk : Nat → Bool
  /-- writing the active_low control file succeeds -/
  activeLowOk : Nat → Bool
  /-- the descriptor number `open` returns for pin `number`'s value file -/
  fdOf : Nat → Nat
  /-- `int(fd.read())` for descriptor `fd` -/
  fdValue : Nat → Int

/-- Class `Pin`: one exported line's cached configuration and owned value
descriptor.  `number` and `direction` have read-only properties in the source
(only `callback` has a setter), so a pin record is immutable here except for
the callback field. -/
structure Pin where
  number : Nat
  direction : String
  callback : Option Nat
  edge : Option String
  active_low : Nat
  fd : Nat
deriving DecidableEq, Repr

/-- `Pin.__init__`: stores attributes, opens the value descriptor, checks
`callback and not edge`, writes direction, writes edge only when an edge was
given, and for truthy `active_low` validates it against `ACTIVE_LOW_MODES`
and writes it.  Returns the constructed pin or the first error, together
with the trace of side effects performed before the outcome.  (Edge strings
are taken nonempty, so Python truthiness of `edge` is `Option.isSome`.) -/
def Pin.init (w : World) (number : Nat) (direction : String)
    (callback : Option Nat) (edge : Option String) (active_low : Nat) :
    Except GpioError Pin × List Event :=
  if !w.openOk number then (.error .openIOError, [])
  else
    let tr0 := [Event.openValue number]
    if callback.isSome && !edge.isSome then (.error .missingEdge, tr0)
    else if !w.directionOk number then (.error .configIOError, tr0)
    else
      let tr1 := tr0 ++ [Event.writeDirection number direction]
      let edgeStep : Except GpioError Unit × List Event :=
        match edge with
        | some e => if w.edgeOk number then (.ok (), [Event.writeEdge number e])
                    else (.error .configIOError, [])
        | none => (.ok (), [])
      match edgeStep with
      | (.error e, tr) => (.error e, tr1 ++ tr)
      | (.ok _, tr2) =>
        let trE := tr1 ++ tr2
        if active_low ≠ 0 then
          if ¬ (active_low ∈ ACTIVE_LOW_MODES) then (.error .invalidPolarity, trE)
          else if !w.activeLowOk number then (.error .configIOError, trE)
          else
            (.ok { number := number, direction := direction, callback := callback,
                   edge := edge, active_low := active_low, fd := w.fdOf number },
             trE ++ [Event.writeActiveLow number active_low])
        else
          (.ok { number := number, direction := direction, callback := callback,
                 edge := edge, active_low := active_low, fd := w.fdOf number },
           trE)

/-- `Pin.changed(state)`: `if callable(self._callback): self._callback(self.number, state)`.
First component: the result of the call (`.error` when the callback raises,
which the source does not catch).  Second component: the invocations made,
as `(cb, number, state)` triples. -/
def Pin.changed (cbSem : Nat → Nat → Int → Except GpioError Unit)
    (p : Pin) (state : Int) : Except GpioError Unit × List (Nat × Nat × Int) :=
  match p.callback with
  | some cb => (cbSem cb p.number state, [(cb, p.number, state)])
  | none => (.ok (), [])

/-- Association-list model of the Python dict `_allocated_pins`: first lookup
of a key. -/
def mapLookup (m : List (Nat × Pin)) (n : Nat) : Option Pin :=
  match m with
  | [] => none
  | (k, p) :: rest => if k = n then some p else mapLookup rest n

/-- Dict assignment `m[n] = p`: replace the binding when the key is present,
append otherwise. -/
def mapInsert (m : List (Nat × Pin)) (n : Nat) (p : Pin) : List (Nat × Pin) :=
  match m with
  | [] => [(n, p)]
  | (k, q) :: rest => if k = n then (k, p) :: rest else (k, q) :: mapInsert rest n p

/-- Dict deletion `del m[n]`: remove the binding of the key. -/
def mapErase (m : List (Nat × Pin)) (n : Nat) : List (Nat × Pin) :=
  match m with
  | [] => []
  | (k, q) :: rest => if k = n then rest else (k, q) :: mapErase rest n

/-- The mutable attributes of the `Controller` singleton: `_available_pins`,
`_allocated_pins`, the epoll registration set (descriptors registered on
`_poll_queue`), and `_running`. -/
structure CState where
  available : List Nat
  allocated : List (Nat × Pin)
  registered : Finset Nat
  running : Bool
deriving DecidableEq

namespace Controller

/-- `Controller.alloc_pin(number, direction, callback, edge, active_low)`:
validity checks (`_check_pin_validity`, direction in `DIRECTIONS`, edge in
`EDGES` when a callback is given), export when the sysfs directory is absent,
`Pin` construction, epoll registration for INPUT, then insertion into
`_allocated_pins`.  Returns the pin or the first error, the resulting
controller state, and the side-effect trace. -/
def alloc_pin (w : World) (s : CState) (number : Nat) (direction : String)
    (callback : Option Nat) (edge : Option String) (active_low : Nat) :
    Except GpioError Pin × CState × List Event :=
  if ¬ (number ∈ s.available) then (.error .outOfRange, s, [])
  else if (mapLookup s.allocated number).isSome then (.error .alreadyAllocated, s, [])
  else if ¬ (direction ∈ DIRECTIONS) then (.error .invalidDirection, s, [])
  else if callback.isSome &&
          !(match edge with | some e => decide (e ∈ EDGES) | none => false) then
    (.error .missingEdge, s, [])
  else
    let exportStep : Except GpioError Unit × List Event :=
      if !w.exported number then
        if w.exportOk number then (.ok (), [Event.writeExport number])
        else (.error .exportIOError, [])
      else (.ok (), [])
    match exportStep with
    | (.error e, tr) => (.error e, s, tr)
    | (.ok _, tr0) =>
      match Pin.init w number direction callback edge active_low with
      | (.error e, tr1) => (.error e, s, tr0 ++ tr1)
      | (.ok pin, tr1) =>
        let (s1, tr2) :=
          if direction = INPUT then
            ({ s with registered := insert pin.fd s.registered },
             [Event.epollRegister pin.fd])
          else (s, ([] : List Event))
        (.ok pin,
         { s1 with allocated := mapInsert s1.allocated number pin },
         tr0 ++ tr1 ++ tr2)

/-- `Controller.dealloc_pin(number)`: raises when the number is not allocated;
otherwise writes the number to the unexport control file, then unregisters the
pin's descriptor from epoll when its direction is INPUT, then deletes the
entry from `_allocated_pins`.  (The source performs the unexport write before
the epoll unregistration.) -/
def dealloc_pin (_w : World) (s : CState) (number : Nat) :
    Except GpioError Unit × CState × List Event :=
  match mapLookup s.allocated number with
  | none => (.error .notAllocated, s, [])
  | some pin =>
    let tr0 := [Event.writeUnexport number]
    let (s1, tr1) :=
      if pin.direction = INPUT then
        ({ s with registered := s.registered.erase pin.fd },
         [Event.epollUnregister pin.fd])
      else (s, ([] : List Event))
    (.ok (), { s1 with allocated := mapErase s1.allocated number }, tr0 ++ tr1)

/-- `Controller.get_pin(number)`: the raw dict lookup
`self._allocated_pins[number]`; an absent key raises (`KeyError`), modelled
as `notAllocated`. -/
def get_pin (s : CState) (number : Nat) : Except GpioError Pin :=
  match mapLookup s.allocated number with
  | none => .error .notAllocated
  | some pin => .ok pin

/-- `Controller.set_pin(number)`: raises when not allocated, otherwise
`pin.set()` writes the HIGH token to the value descriptor (and rewinds). -/
def set_pin (s : CState) (number : Nat) :
    Except GpioError Unit × List Event :=
  match mapLookup s.allocated number with
  | none => (.error .notAllocated, [])
  | some pin => (.ok (), [Event.writeValue pin.fd SYSFS_GPIO_VALUE_HIGH])

/-- `Controller.reset_pin(number)`: raises when not allocated, otherwise
`pin.reset()` writes the LOW token to the value descriptor (and rewinds). -/
def reset_pin (s : CState) (number : Nat) :
    Except GpioError Unit × List Event :=
  match mapLookup s.allocated number with
  | none => (.error .notAllocated, [])
  | some pin => (.ok (), [Event.writeValue pin.fd SYSFS_GPIO_VALUE_LOW])

/-- `Controller.get_pin_state(number)`: raises when not allocated; for an
INPUT pin unregisters the descriptor from epoll, reads the value, and
re-registers it; returns `False` when the integer read is ≤ 0 and `True`
otherwise. -/
def get_pin_state (w : World) (s : CState) (number : Nat) :
    Except GpioError Bool × CState × List Event :=
  match mapLookup s.allocated number with
  | none => (.error .notAllocated, s, [])
  | some pin =>
    let (s1, tr1) :=
      if pin.direction = INPUT then
        ({ s with registered := s.registered.erase pin.fd },
         [Event.epollUnregister pin.fd])
      else (s, ([] : List Event))
    let val := w.fdValue pin.fd
    let tr2 := tr1 ++ [Event.readValue pin.fd]
    let (s2, tr3) :=
      if pin.direction = INPUT then
        ({ s1 with registered := insert pin.fd s1.registered },
         tr2 ++ [Event.epollRegister pin.fd])
      else (s1, tr2)
    (.ok (if val ≤ 0 then false else true), s2, tr3)

/-- `Controller.stop()`: sets `_running = False` and calls `dealloc_pin` on
the number of every pin in a copy of `_allocated_pins`. -/
def stop (w : World) (s : CState) : CState × List Event :=
  let s0 := { s with running := false }
  (s0.allocated.map Prod.fst).foldl
    (fun acc n =>
      let r := dealloc_pin w acc.1 n
      (r.2.1, acc.2 ++ r.2.2))
    (s0, ([] : List Event))

/-- The inner loop of `Controller._poll_queue_event` for one ready descriptor:
`for pin in self._allocated_pins.values(): if pin.fileno() == fd:
pin.changed(pin.read())`.  Accumulates the callback invocations; a callback
exception aborts the iteration (nothing in the source catches it). -/
def dispatchPins (cbSem : Nat → Nat → Int → Except GpioError Unit) (w : World) :
    List Pin → Nat → Except GpioError Unit × List (Nat × Nat × Int)
  | [], _ => (.ok (), [])
  | p :: rest, fd =>
    if p.fd = fd then
      let c := Pin.changed cbSem p (w.fdValue p.fd)
      match c.1 with
      | .error e => (.error e, c.2)
      | .ok _ =>
        let r := dispatchPins cbSem w rest fd
        (r.1, c.2 ++ r.2)
    else dispatchPins cbSem w rest fd

/-- `Controller._poll_queue_event(events)`: for each `(fd, event)` pair, skip
it when its mask does not intersect `EPOLLPRI | EPOLLET`, otherwise scan the
allocated pins for matching descriptors and dispatch. -/
def pollQueueEvent (cbSem : Nat → Nat → Int → Except GpioError Unit)
    (w : World) (s : CState) :
    List (Nat × Nat) → Except GpioError Unit × List (Nat × Nat × Int)
  | [] => (.ok (), [])
  | (fd, ev) :: rest =>
    if ev &&& (EPOLLPRI ||| EPOLLET) = 0 then pollQueueEvent cbSem w s rest
    else
      let d := dispatchPins cbSem w (s.allocated.map Prod.snd) fd
      match d.1 with
      | .error e => (.error e, d.2)
      | .ok _ =>
        let r := pollQueueEvent cbSem w s rest
        (r.1, d.2 ++ r.2)

end Controller

/-- Is an event an epoll unregistration? -/
def Event.isUnregister : Event → Bool
  | .epollUnregister _ => true
  | _ => false

/-- Is an event a write to the unexport control file? -/
def Event.isUnexport : Event → Bool
  | .writeUnexport _ => true
  | _ => false

/-- The ordering property "the unregister step precedes the unexport write"
on a side-effect trace: the first epoll unregistration occurs strictly
before the first unexport write. -/
def unregisterPrecedesUnexport (tr : List Event) : Bool :=
  tr.findIdx Event.isUnregister < tr.findIdx Event.isUnexport

/-- The registry invariant: every entry of `_allocated_pins` stores a pin
whose `number` attribute equals its key. -/
def RegistryInv (s : CState) : Prop :=
  ∀ np ∈ s.allocated, (Prod.snd np).number = Prod.fst np

/-- Callback semantics in which every callback returns normally. -/
def cbOk : Nat → Nat → Int → Except GpioError Unit := fun _ _ _ => .ok ()

/-- Callback semantics in which every callback raises. -/
def cbBoom : Nat → Nat → Int → Except GpioError Unit :=
  fun cb _ _ => .error (.callbackError cb)

/-- A concrete world where every sysfs operation succeeds, no pin directory
exists yet, pin `n`'s value descriptor is `n + 100`, and every value read
parses to `1`. -/
def w0 : World :=
  { exported := fun _ => false
    exportOk := fun _ => true
    openOk := fun _ => true
    directionOk := fun _ => true
    edgeOk := fun _ => true
    activeLowOk := fun _ => true
    fdOf := fun n => n + 100
    fdValue := fun _ => 1 }

/-- Concrete INPUT pin 17 with edge BOTH and callback id 0, as in the spec's
interrupt scenario. -/
def pin17 : Pin :=
  { number := 17, direction := INPUT, callback := some 0,
    edge := some BOTH, active_low := 0, fd := 117 }

/-- Concrete OUTPUT pin 4 without a callback. -/
def pinOut4 : Pin :=
  { number := 4, direction := OUTPUT, callback := none,
    edge := none, active_low := 0, fd := 104 }

/-- A controller state with nothing allocated. -/
def s0 : CState :=
  { available := [4, 5, 17], allocated := [], registered := ∅, running := true }

/-- A controller state in which pin 17 is allocated as INPUT and its
descriptor 117 is registered with the poller. -/
def s17 : CState :=
  { available := [4, 5, 17], allocated := [(17, pin17)],
    registered := {117}, running := true }

/-- C1: every accessor (`get_pin`, `set_pin`, `reset_pin`, `get_pin_state`,
`dealloc_pin`) on a number absent from the allocated map fails with the
NotAllocated error. -/
theorem accessors_fail_notAllocated (w : World) (s : CState) (n : Nat)
    (h : mapLookup s.allocated n = none) :
    Controller.get_pin s n = .error .notAllocated ∧
    (Controller.set_pin s n).1 = .error .notAllocated ∧
    (Controller.reset_pin s n).1 = .error .notAllocated ∧
    (Controller.get_pin_state w s n).1 = .error .notAllocated ∧
    (Controller.dealloc_pin w s n).1 = .error .notAllocated := by
  refine ⟨?_, ?_, ?_, ?_, ?_⟩ <;>
    simp [Controller.get_pin, Controller.set_pin, Controller.reset_pin,
          Controller.get_pin_state, Controller.dealloc_pin, h]

/-- C1 witness: in the state with nothing allocated, every accessor on pin 5
fails with NotAllocated. -/
theorem accessors_fail_notAllocated_witness :
    mapLookup s0.allocated 5 = none ∧
    (Controller.get_pin s0 5 = .error .notAllocated ∧
     (Controller.set_pin s0 5).1 = .error .notAllocated ∧
     (Controller.reset_pin s0 5).1 = .error .notAllocated ∧
     (Controller.get_pin_state w0 s0 5).1 = .error .notAllocated ∧
     (Controller.dealloc_pin w0 s0 5).1 = .error .notAllocated) :=
  ⟨rfl, accessors_fail_notAllocated w0 s0 5 rfl⟩

/-- C2 counterexample: deallocating the allocated INPUT pin 17 performs the
unexport write first and the epoll unregistration second, so the claimed
"unregister precedes unexport" ordering is false on the resulting trace. -/
theorem dealloc_order_counterexample :
    (Controller.dealloc_pin w0 s17 17).2.2 =
      [Event.writeUnexport 17, Event.epollUnregister 117] ∧
    unregisterPrecedesUnexport (Controller.dealloc_pin w0 s17 17).2.2 = false := by
  constructor <;> decide

/-- C2 amended: for every allocated INPUT pin, `dealloc_pin` performs its
effects in the order: write the pin number to the unexport endpoint, then
unregister the descriptor from the poller, then remove the pin from the
allocated map; the unexport write always precedes the unregister step. -/
theorem dealloc_input_order (w : World) (s : CState) (n : Nat) (pin : Pin)
    (h : mapLookup s.allocated n = some pin) (hdir : pin.direction = INPUT) :
    Controller.dealloc_pin w s n =
      (.ok (),
       { s with registered := s.registered.erase pin.fd,
                allocated := mapErase s.allocated n },
       [Event.writeUnexport n, Event.epollUnregister pin.fd]) := by
  simp [Controller.dealloc_pin, h, hdir]

/-- C2 amended witness: the concrete deallocation of INPUT pin 17. -/
theorem dealloc_input_order_witness :
    mapLookup s17.allocated 17 = some pin17 ∧ pin17.direction = INPUT ∧
    Controller.dealloc_pin w0 s17 17 =
      (.ok (),
       { s17 with registered := s17.registered.erase pin17.fd,
                  allocated := mapErase s17.allocated 17 },
       [Event.writeUnexport 17, Event.epollUnregister pin17.fd]) :=
  ⟨rfl, rfl, dealloc_input_order w0 s17 17 pin17 rfl rfl⟩

/-- C3 counterexample: `Pin.changed` does not catch callback exceptions — a
callback that raises propagates its exception to the caller of `changed`. -/
theorem changed_propagates_counterexample :
    (Pin.changed cbBoom pin17 1).1 = .error (.callbackError 0) := rfl

/-- C3 amended: when no callback is set, `Pin.changed` is a no-op; when a
callback is set, it is invoked exactly once with `(number, state)` and its
outcome — including an exception — propagates to the caller of `changed`. -/
theorem changed_amended (cbSem : Nat → Nat → Int → Except GpioError Unit)
    (p : Pin) (state : Int) :
    (p.callback = none → Pin.changed cbSem p state = (.ok (), [])) ∧
    (∀ cb, p.callback = some cb →
      Pin.changed cbSem p state =
        (cbSem cb p.number state, [(cb, p.number, state)])) := by
  constructor
  · intro h; simp [Pin.changed, h]
  · intro cb h; simp [Pin.changed, h]

/-- C3 amended witness: concrete no-op for the callback-less pin 4, and
concrete propagation of a raising callback for pin 17. -/
theorem changed_amended_witness :
    Pin.changed cbBoom pinOut4 1 = (.ok (), []) ∧
    Pin.changed cbBoom pin17 1 = (.error (.callbackError 0), [(0, 17, 1)]) :=
  ⟨(changed_amended cbBoom pinOut4 1).1 rfl,
   by rw [(changed_amended cbBoom pin17 1).2 0 rfl]; rfl⟩

/-- C10: for a valid, unallocated number and a direction outside
`DIRECTIONS`, `alloc_pin` fails with the direction error, with an empty
side-effect trace (so no export write and no pin construction occurred) and
an unchanged controller state. -/
theorem alloc_invalid_direction (w : World) (s : CState) (n : Nat)
    (d : String) (cb : Option Nat) (ed : Option String) (al : Nat)
    (hav : n ∈ s.available) (hna : mapLookup s.allocated n = none)
    (hd : ¬ d ∈ DIRECTIONS) :
    Controller.alloc_pin w s n d cb ed al = (.error .invalidDirection, s, []) := by
  simp [Controller.alloc_pin, hav, hna, hd]

/-- C10 witness: allocating unallocated pin 5 with direction `"sideways"`
fails with the direction error, leaving state and trace empty. -/
theorem alloc_invalid_direction_witness :
    5 ∈ s0.available ∧ mapLookup s0.allocated 5 = none ∧
    ¬ "sideways" ∈ DIRECTIONS ∧
    Controller.alloc_pin w0 s0 5 "sideways" none none 0 =
      (.error .invalidDirection, s0, []) :=
  ⟨by decide, rfl, by decide,
   alloc_invalid_direction w0 s0 5 "sideways" none none 0
     (by decide) rfl (by decide)⟩

theorem get_pin_state_val (w : World) (s : CState) (n : Nat) (pin : Pin)
    (h : mapLookup s.allocated n = some pin) :
    (Controller.get_pin_state w s n).1 =
      .ok (if w.fdValue pin.fd ≤ 0 then false else true) := by
  by_cases hdir : pin.direction = INPUT <;>
    simp [Controller.get_pin_state, h, hdir]

theorem get_pin_state_input_effects (w : World) (s : CState) (n : Nat) (pin : Pin)
    (h : mapLookup s.allocated n = some pin) (hdir : pin.direction = INPUT) :
    (Controller.get_pin_state w s n).2.2 =
      [Event.epollUnregister pin.fd, Event.readValue pin.fd,
       Event.epollRegister pin.fd] ∧
    ((Controller.get_pin_state w s n).2.1).registered =
      insert pin.fd (s.registered.erase pin.fd) := by
  constructor <;> simp [Controller.get_pin_state, h, hdir]

/-- C5: for an allocated pin, `get_pin_state` returns `false` exactly when
the integer read from the value descriptor is ≤ 0 and `true` otherwise; for
an INPUT pin it unregisters the descriptor, reads, then re-registers, and
when the descriptor was registered the registration set is unchanged
overall. -/
theorem get_pin_state_spec (w : World) (s : CState) (n : Nat) (pin : Pin)
    (h : mapLookup s.allocated n = some pin) :
    ((Controller.get_pin_state w s n).1 = .ok false ↔ w.fdValue pin.fd ≤ 0) ∧
    ((Controller.get_pin_state w s n).1 = .ok true ↔ 0 < w.fdValue pin.fd) ∧
    (pin.direction = INPUT →
      (Controller.get_pin_state w s n).2.2 =
        [Event.epollUnregister pin.fd, Event.readValue pin.fd,
         Event.epollRegister pin.fd] ∧
      (pin.fd ∈ s.registered →
        ((Controller.get_pin_state w s n).2.1).registered = s.registered)) := by
  have hv := get_pin_state_val w s n pin h
  refine ⟨?_, ?_, fun hdir =>
    ⟨(get_pin_state_input_effects w s n pin h hdir).1, fun hmem => ?_⟩⟩
  · rw [hv]; by_cases hc : w.fdValue pin.fd ≤ 0 <;> simp [hc]
  · rw [hv]; by_cases hc : w.fdValue pin.fd ≤ 0 <;> simp [hc] <;> omega

  · rw [(get_pin_state_input_effects w s n pin h hdir).2,
        Finset.insert_erase hmem]

/-- C5 witness: state of the allocated INPUT pin 17 under a world whose
reads parse to 1. -/
theorem get_pin_state_spec_witness :
    mapLookup s17.allocated 17 = some pin17 ∧
    (((Controller.get_pin_state w0 s17 17).1 = .ok false ↔
        w0.fdValue pin17.fd ≤ 0) ∧
     ((Controller.get_pin_state w0 s17 17).1 = .ok true ↔
        0 < w0.fdValue pin17.fd) ∧
     (pin17.direction = INPUT →
       (Controller.get_pin_state w0 s17 17).2.2 =
         [Event.epollUnregister pin17.fd, Event.readValue pin17.fd,
          Event.epollRegister pin17.fd] ∧
       (pin17.fd ∈ s17.registered →
         ((Controller.get_pin_state w0 s17 17).2.1).registered =
           s17.registered))) :=
  ⟨rfl, get_pin_state_spec w0 s17 17 pin17 rfl⟩

/-- C8: whenever `alloc_pin` fails with any error, the allocated map is left
unchanged — a partially-configured pin is never inserted into the
registry. -/
theorem alloc_pin_error_preserves_allocated (w : World) (s : CState) (n : Nat)
    (d : String) (cb : Option Nat) (ed : Option String) (al : Nat)
    (e : GpioError) :
    (Controller.alloc_pin w s n d cb ed al).1 = .error e →
    ((Controller.alloc_pin w s n d cb ed al).2.1).allocated = s.allocated := by
  unfold Controller.alloc_pin
  repeat' split
  all_goals intro h
  all_goals first | rfl | simp_all

/-- C8 witness: the concrete double allocation of pin 17 fails with
AlreadyAllocated and leaves the allocated map unchanged. -/
theorem alloc_pin_error_preserves_allocated_witness :
    (Controller.alloc_pin w0 s17 17 INPUT none none 0).1 =
      .error .alreadyAllocated ∧
    ((Controller.alloc_pin w0 s17 17 INPUT none none 0).2.1).allocated =
      s17.allocated :=
  ⟨rfl, alloc_pin_error_preserves_allocated w0 s17 17 INPUT none none 0
          .alreadyAllocated rfl⟩

theorem dispatchPins_no_match (cbSem : Nat → Nat → Int → Except GpioError Unit)
    (w : World) (pins : List Pin) (fd : Nat)
    (h : ∀ p ∈ pins, p.fd ≠ fd) :
    Controller.dispatchPins cbSem w pins fd = (.ok (), []) := by
  induction pins with
  | nil => rfl
  | cons q rest ih =>
    have hq : ¬ q.fd = fd := h q (List.mem_cons_self q rest)
    rw [Controller.dispatchPins, if_neg hq]
    exact ih fun p hp => h p (List.mem_cons_of_mem q hp)

theorem dispatchPins_ok (cbSem : Nat → Nat → Int → Except GpioError Unit)
    (w : World) (pins : List Pin) (fd : Nat)
    (hok : ∀ c m st, cbSem c m st = .ok ()) :
    (Controller.dispatchPins cbSem w pins fd).1 = .ok () := by
  induction pins with
  | nil => rfl
  | cons q rest ih =>
    by_cases hq : q.fd = fd <;>
      cases hqc : q.callback <;>
        simp [Controller.dispatchPins, hq, Pin.changed, hqc, hok, ih]

theorem dispatchPins_unique (cbSem : Nat → Nat → Int → Except GpioError Unit)
    (w : World) (pins : List Pin) (fd : Nat) (p : Pin) (cb : Nat)
    (hok : ∀ c m st, cbSem c m st = .ok ())
    (hinj : (pins.map Pin.fd).Nodup)
    (hp : p ∈ pins) (hfd : p.fd = fd) (hcb : p.callback = some cb) :
    Controller.dispatchPins cbSem w pins fd =
      (.ok (), [(cb, p.number, w.fdValue fd)]) := by
  induction pins with
  | nil => cases hp
  | cons q rest ih =>
    rw [List.map_cons, List.nodup_cons] at hinj
    obtain ⟨hq_not, hrest⟩ := hinj
    rcases List.mem_cons.mp hp with rfl | hp_rest
    · have hnm : ∀ x ∈ rest, x.fd ≠ fd := by
        intro x hx hxe
        exact hq_not (List.mem_map.mpr ⟨x, hx, hxe.trans hfd.symm⟩)
      simp [Controller.dispatchPins, hfd, Pin.changed, hcb, hok,
            dispatchPins_no_match cbSem w rest fd hnm]
    · have hq : ¬ q.fd = fd := by
        intro hqe
        exact hq_not (hqe ▸ hfd ▸ List.mem_map_of_mem Pin.fd hp_rest)
      rw [Controller.dispatchPins, if_neg hq]
      exact ih hrest hp_rest

theorem pollQueueEvent_append (cbSem : Nat → Nat → Int → Except GpioError Unit)
    (w : World) (s : CState)
    (hok : ∀ c m st, cbSem c m st = .ok ())
    (evs1 evs2 : List (Nat × Nat)) :
    (Controller.pollQueueEvent cbSem w s (evs1 ++ evs2)).2 =
      (Controller.pollQueueEvent cbSem w s evs1).2 ++
      (Controller.pollQueueEvent cbSem w s evs2).2 := by
  induction evs1 with
  | nil => simp [Controller.pollQueueEvent]
  | cons ev rest ih =>
    obtain ⟨fd, mask⟩ := ev
    by_cases hm : mask &&& (EPOLLPRI ||| EPOLLET) = 0
    · simpa [Controller.pollQueueEvent, hm] using ih
    · simp [Controller.pollQueueEvent, hm,
            dispatchPins_ok cbSem w (s.allocated.map Prod.snd) fd hok, ih]

/-- C4: given the one-descriptor-per-allocated-pin invariant and callbacks
that return normally, the dispatch routine handles a ready descriptor whose
mask intersects `EPOLLPRI | EPOLLET` by invoking the callback of the unique
allocated pin owning that descriptor exactly once, with the pin's number and
the value freshly read from the descriptor; a pair whose mask does not
intersect those bits causes no dispatch; and a batch dispatches exactly the
concatenation of its pairs' dispatches. -/
theorem poll_queue_event_dispatch
    (cbSem : Nat → Nat → Int → Except GpioError Unit)
    (w : World) (s : CState) (fd mask : Nat) (p : Pin) (cb : Nat)
    (hok : ∀ c m st, cbSem c m st = .ok ())
    (hinj : ((s.allocated.map Prod.snd).map Pin.fd).Nodup)
    (hp : p ∈ s.allocated.map Prod.snd) (hfd : p.fd = fd)
    (hcb : p.callback = some cb)
    (hmask : mask &&& (EPOLLPRI ||| EPOLLET) ≠ 0) :
    Controller.pollQueueEvent cbSem w s [(fd, mask)] =
      (.ok (), [(cb, p.number, w.fdValue fd)]) ∧
    (∀ mask2, mask2 &&& (EPOLLPRI ||| EPOLLET) = 0 →
      Controller.pollQueueEvent cbSem w s [(fd, mask2)] = (.ok (), [])) ∧
    (∀ evs1 evs2, (Controller.pollQueueEvent cbSem w s (evs1 ++ evs2)).2 =
      (Controller.pollQueueEvent cbSem w s evs1).2 ++
      (Controller.pollQueueEvent cbSem w s evs2).2) := by
  refine ⟨?_, ?_, fun evs1 evs2 => pollQueueEvent_append cbSem w s hok evs1 evs2⟩
  · simp [Controller.pollQueueEvent, hmask,
          dispatchPins_unique cbSem w (s.allocated.map Prod.snd) fd p cb
            hok hinj hp hfd hcb]
  · intro mask2 hm2
    simp [Controller.pollQueueEvent, hm2]

/-- C4 witness: the spec's interrupt scenario — pin 17 allocated as INPUT
with a callback; an `EPOLLPRI` readiness event on its descriptor 117 invokes
callback 0 exactly once with `(17, 1)`; a mask without the urgent bits
dispatches nothing. -/
theorem poll_queue_event_dispatch_witness :
    pin17 ∈ s17.allocated.map Prod.snd ∧
    Controller.pollQueueEvent cbOk w0 s17 [(117, 2)] = (.ok (), [(0, 17, 1)]) ∧
    Controller.pollQueueEvent cbOk w0 s17 [(117, 1)] = (.ok (), []) := by
  have h := poll_queue_event_dispatch cbOk w0 s17 117 2 pin17 0
    (fun _ _ _ => rfl) (by decide) (by decide) rfl rfl (by decide)
  exact ⟨by decide, h.1, h.2.1 1 (by decide)⟩

theorem pin_init_fst_ok (w : World) (n : Nat) (d : String) (cb : Option Nat)
    (ed : Option String) (al : Nat)
    (ho : w.openOk n = true) (hdw : w.directionOk n = true)
    (hew : w.edgeOk n = true) (haw : w.activeLowOk n = true)
    (hce : cb.isSome = true → ed.isSome = true)
    (hal : al ∈ ACTIVE_LOW_MODES) :
    (Pin.init w n d cb ed al).1 =
      .ok { number := n, direction := d, callback := cb, edge := ed,
            active_low := al, fd := w.fdOf n } := by
  have hal' : al = 1 ∨ al = 0 := by
    simpa [ACTIVE_LOW_MODES, ACTIVE_LOW_ON, ACTIVE_LOW_OFF] using hal
  cases cb with
  | some c =>
    cases ed with
    | some e =>
      rcases hal' with rfl | rfl <;>
        simp [Pin.init, ho, hdw, hew, haw,
              ACTIVE_LOW_MODES, ACTIVE_LOW_ON, ACTIVE_LOW_OFF]
    | none => exact absurd (hce (by simp)) (by simp)
  | none =>
    cases ed with
    | some e =>
      rcases hal' with rfl | rfl <;>
        simp [Pin.init, ho, hdw, hew, haw,
              ACTIVE_LOW_MODES, ACTIVE_LOW_ON, ACTIVE_LOW_OFF]
    | none =>
      rcases hal' with rfl | rfl <;>
        simp [Pin.init, ho, hdw, hew, haw,
              ACTIVE_LOW_MODES, ACTIVE_LOW_ON, ACTIVE_LOW_OFF]

theorem pin_init_fst_invalidPolarity (w : World) (n : Nat) (d : String)
    (cb : Option Nat) (ed : Option String)
    (ho : w.openOk n = true) (hdw : w.directionOk n = true)
    (hew : w.edgeOk n = true)
    (hce : cb.isSome = true → ed.isSome = true) :
    (Pin.init w n d cb ed 2).1 = .error .invalidPolarity := by
  cases cb with
  | some c =>
    cases ed with
    | some e =>
      simp [Pin.init, ho, hdw, hew,
            ACTIVE_LOW_MODES, ACTIVE_LOW_ON, ACTIVE_LOW_OFF]
    | none => exact absurd (hce (by simp)) (by simp)
  | none =>
    cases ed <;>
      simp [Pin.init, ho, hdw, hew,
            ACTIVE_LOW_MODES, ACTIVE_LOW_ON, ACTIVE_LOW_OFF]

theorem alloc_pin_ok_of_valid (w : World) (s : CState) (n : Nat) (d : String)
    (cb : Option Nat) (ed : Option String) (al : Nat)
    (hav : n ∈ s.available) (hna : mapLookup s.allocated n = none)
    (hd : d ∈ DIRECTIONS)
    (hedge : cb.isSome = true → ∃ e, ed = some e ∧ e ∈ EDGES)
    (hal : al ∈ ACTIVE_LOW_MODES)
    (hio : w.exportOk n = true ∧ w.openOk n = true ∧ w.directionOk n = true ∧
           w.edgeOk n = true ∧ w.activeLowOk n = true) :
    ∃ p, (Controller.alloc_pin w s n d cb ed al).1 = .ok p := by
  obtain ⟨hx, ho, hdw, hew, haw⟩ := hio
  have hce : cb.isSome = true → ed.isSome = true := fun hc => by
    obtain ⟨e, he, -⟩ := hedge hc
    simp [he]
  have hinit := pin_init_fst_ok w n d cb ed al ho hdw hew haw hce hal
  rcases hinitp : Pin.init w n d cb ed al with ⟨r, tr⟩
  rw [hinitp] at hinit
  have hr : r = .ok { number := n, direction := d, callback := cb, edge := ed,
                      active_low := al, fd := w.fdOf n } := hinit
  subst hr
  have hIn : INPUT ∈ DIRECTIONS := by decide
  have hOut : OUTPUT ∈ DIRECTIONS := by decide
  have hOutIn : ¬ OUTPUT = INPUT := by decide
  rcases (show d = INPUT ∨ d = OUTPUT by simpa [DIRECTIONS] using hd) with rfl | rfl
  · cases cb with
    | some c =>
      obtain ⟨e, he, hee⟩ := hedge rfl
      subst he
      by_cases hexp : w.exported n <;>
        simp [Controller.alloc_pin, hav, hna, hIn, hee, hexp, hx, hinitp]
    | none =>
      by_cases hexp : w.exported n <;>
        simp [Controller.alloc_pin, hav, hna, hIn, hexp, hx, hinitp]
  · cases cb with
    | some c =>
      obtain ⟨e, he, hee⟩ := hedge rfl
      subst he
      by_cases hexp : w.exported n <;>
        simp [Controller.alloc_pin, hav, hna, hOut, hOutIn, hee, hexp, hx, hinitp]
    | none =>
      by_cases hexp : w.exported n <;>
        simp [Controller.alloc_pin, hav, hna, hOut, hOutIn, hexp, hx, hinitp]

/-- C6: for a valid, unallocated pin number (and otherwise valid arguments
against a world whose sysfs writes succeed), `alloc_pin` with `active_low = 2`
fails with the InvalidPolarity error, while `active_low = 1` and
`active_low = 0` both succeed. -/
theorem alloc_pin_polarity_check (w : World) (s : CState) (n : Nat)
    (d : String) (cb : Option Nat) (ed : Option String)
    (hav : n ∈ s.available) (hna : mapLookup s.allocated n = none)
    (hd : d ∈ DIRECTIONS)
    (hedge : cb.isSome = true → ∃ e, ed = some e ∧ e ∈ EDGES)
    (hio : w.exportOk n = true ∧ w.openOk n = true ∧ w.directionOk n = true ∧
           w.edgeOk n = true ∧ w.activeLowOk n = true) :
    (Controller.alloc_pin w s n d cb ed 2).1 = .error .invalidPolarity ∧
    (∃ p, (Controller.alloc_pin w s n d cb ed 1).1 = .ok p) ∧
    (∃ p, (Controller.alloc_pin w s n d cb ed 0).1 = .ok p) := by
  obtain ⟨hx, ho, hdw, hew, haw⟩ := hio
  have hce : cb.isSome = true → ed.isSome = true := fun hc => by
    obtain ⟨e, he, -⟩ := hedge hc
    simp [he]
  refine ⟨?_,
    alloc_pin_ok_of_valid w s n d cb ed 1 hav hna hd hedge (by decide)
      ⟨hx, ho, hdw, hew, haw⟩,
    alloc_pin_ok_of_valid w s n d cb ed 0 hav hna hd hedge (by decide)
      ⟨hx, ho, hdw, hew, haw⟩⟩
  have hinit := pin_init_fst_invalidPolarity w n d cb ed ho hdw hew hce
  rcases hinitp : Pin.init w n d cb ed 2 with ⟨r, tr⟩
  rw [hinitp] at hinit
  have hr : r = .error .invalidPolarity := hinit
  subst hr
  have hIn : INPUT ∈ DIRECTIONS := by decide
  have hOut : OUTPUT ∈ DIRECTIONS := by decide
  have hOutIn : ¬ OUTPUT = INPUT := by decide
  rcases (show d = INPUT ∨ d = OUTPUT by simpa [DIRECTIONS] using hd) with rfl | rfl
  · cases cb with
    | some c =>
      obtain ⟨e, he, hee⟩ := hedge rfl
      subst he
      by_cases hexp : w.exported n <;>
        simp [Controller.alloc_pin, hav, hna, hIn, hee, hexp, hx, hinitp]
    | none =>
      by_cases hexp : w.exported n <;>
        simp [Controller.alloc_pin, hav, hna, hIn, hexp, hx, hinitp]
  · cases cb with
    | some c =>
      obtain ⟨e, he, hee⟩ := hedge rfl
      subst he
      by_cases hexp : w.exported n <;>
        simp [Controller.alloc_pin, hav, hna, hOut, hOutIn, hee, hexp, hx, hinitp]
    | none =>
      by_cases hexp : w.exported n <;>
        simp [Controller.alloc_pin, hav, hna, hOut, hOutIn, hexp, hx, hinitp]

/-- C6 witness: pin 5 unallocated and available; `active_low = 2` fails with
InvalidPolarity while 1 and 0 succeed. -/
theorem alloc_pin_polarity_check_witness :
    5 ∈ s0.available ∧ mapLookup s0.allocated 5 = none ∧
    ((Controller.alloc_pin w0 s0 5 OUTPUT none none 2).1 =
        .error .invalidPolarity ∧
     (∃ p, (Controller.alloc_pin w0 s0 5 OUTPUT none none 1).1 = .ok p) ∧
     (∃ p, (Controller.alloc_pin w0 s0 5 OUTPUT none none 0).1 = .ok p)) :=
  ⟨by decide, rfl,
   alloc_pin_polarity_check w0 s0 5 OUTPUT none none (by decide) rfl
     (by decide) (fun hc => by simp at hc) ⟨rfl, rfl, rfl, rfl, rfl⟩⟩

theorem mapLookup_eq_none_of_not_mem (m : List (Nat × Pin)) (n : Nat)
    (h : ¬ n ∈ m.map Prod.fst) : mapLookup m n = none := by
  induction m with
  | nil => rfl
  | cons kq rest ih =>
    have hk : ¬ kq.1 = n := fun he => h (by simp [he.symm])
    rw [show kq = (kq.1, kq.2) from rfl, mapLookup, if_neg hk]
    exact ih fun hm => h (by simp [hm])

theorem mapLookup_mapErase_self (m : List (Nat × Pin)) (n : Nat)
    (hnd : (m.map Prod.fst).Nodup) : mapLookup (mapErase m n) n = none := by
  induction m with
  | nil => rfl
  | cons kq rest ih =>
    rw [List.map_cons, List.nodup_cons] at hnd
    obtain ⟨hk_not, hrest⟩ := hnd
    by_cases hk : kq.1 = n
    · rw [show kq = (kq.1, kq.2) from rfl, mapErase, if_pos hk]
      exact mapLookup_eq_none_of_not_mem rest n (hk ▸ hk_not)
    · rw [show kq = (kq.1, kq.2) from rfl, mapErase, if_neg hk,
          mapLookup, if_neg hk]
      exact ih hrest

theorem dealloc_pin_state (w : World) (s : CState) (n : Nat) (pin : Pin)
    (h : mapLookup s.allocated n = some pin) :
    (Controller.dealloc_pin w s n).1 = .ok () ∧
    ((Controller.dealloc_pin w s n).2.1).allocated = mapErase s.allocated n ∧
    ((Controller.dealloc_pin w s n).2.1).available = s.available := by
  by_cases hdir : pin.direction = INPUT <;>
    simp [Controller.dealloc_pin, h, hdir]

/-- C7: deallocating an allocated pin removes its number from the allocated
map, and a subsequent allocation of the same number with valid arguments
succeeds. -/
theorem dealloc_then_alloc (w : World) (s : CState) (n : Nat) (pin : Pin)
    (d : String) (cb : Option Nat) (ed : Option String) (al : Nat)
    (hkeys : (s.allocated.map Prod.fst).Nodup)
    (h : mapLookup s.allocated n = some pin)
    (hav : n ∈ s.available) (hd : d ∈ DIRECTIONS)
    (hedge : cb.isSome = true → ∃ e, ed = some e ∧ e ∈ EDGES)
    (hal : al ∈ ACTIVE_LOW_MODES)
    (hio : w.exportOk n = true ∧ w.openOk n = true ∧ w.directionOk n = true ∧
           w.edgeOk n = true ∧ w.activeLowOk n = true) :
    (Controller.dealloc_pin w s n).1 = .ok () ∧
    mapLookup ((Controller.dealloc_pin w s n).2.1).allocated n = none ∧
    ∃ p, (Controller.alloc_pin w ((Controller.dealloc_pin w s n).2.1)
            n d cb ed al).1 = .ok p := by
  obtain ⟨hok', hall, hava⟩ := dealloc_pin_state w s n pin h
  have hnone : mapLookup ((Controller.dealloc_pin w s n).2.1).allocated n = none := by
    rw [hall]
    exact mapLookup_mapErase_self s.allocated n hkeys
  exact ⟨hok', hnone,
    alloc_pin_ok_of_valid w _ n d cb ed al (hava ▸ hav) hnone hd hedge hal hio⟩

/-- C7 witness: deallocate the allocated pin 17, then re-allocate it as
INPUT with edge BOTH and a callback. -/
theorem dealloc_then_alloc_witness :
    mapLookup s17.allocated 17 = some pin17 ∧
    ((Controller.dealloc_pin w0 s17 17).1 = .ok () ∧
     mapLookup ((Controller.dealloc_pin w0 s17 17).2.1).allocated 17 = none ∧
     ∃ p, (Controller.alloc_pin w0 ((Controller.dealloc_pin w0 s17 17).2.1)
             17 INPUT (some 0) (some BOTH) 0).1 = .ok p) :=
  ⟨rfl,
   dealloc_then_alloc w0 s17 17 pin17 INPUT (some 0) (some BOTH) 0
     (by decide) rfl (by decide) (by decide)
     (fun _ => ⟨BOTH, rfl, by decide⟩) (by decide)
     ⟨rfl, rfl, rfl, rfl, rfl⟩⟩

theorem mapErase_subset (m : List (Nat × Pin)) (n : Nat) :
    ∀ np ∈ mapErase m n, np ∈ m := by
  induction m with
  | nil => intro np hnp; cases hnp
  | cons kq rest ih =>
    intro np hnp
    rw [show kq = (kq.1, kq.2) from rfl, mapErase] at hnp
    by_cases hk : kq.1 = n
    · rw [if_pos hk] at hnp
      exact List.mem_cons_of_mem _ hnp
    · rw [if_neg hk] at hnp
      rcases List.mem_cons.mp hnp with rfl | hnp'
      · exact List.mem_cons_self _ _
      · exact List.mem_cons_of_mem _ (ih np hnp')

theorem registryInv_mapInsert (m : List (Nat × Pin)) (n : Nat) (p : Pin)
    (hm : ∀ np ∈ m, (Prod.snd np).number = Prod.fst np) (hp : p.number = n) :
    ∀ np ∈ mapInsert m n p, (Prod.snd np).number = Prod.fst np := by
  induction m with
  | nil =>
    intro np hnp
    rw [mapInsert] at hnp
    rcases List.mem_cons.mp hnp with rfl | hnp'
    · simpa using hp
    · cases hnp'
  | cons kq rest ih =>
    intro np hnp
    rw [show kq = (kq.1, kq.2) from rfl, mapInsert] at hnp
    by_cases hk : kq.1 = n
    · rw [if_pos hk] at hnp
      rcases List.mem_cons.mp hnp with rfl | hnp'
      · simpa using hp.trans hk.symm
      · exact hm np (List.mem_cons_of_mem _ hnp')
    · rw [if_neg hk] at hnp
      rcases List.mem_cons.mp hnp with rfl | hnp'
      · exact hm kq (by simp)
      · exact ih (fun x hx => hm x (List.mem_cons_of_mem _ hx)) np hnp'

theorem pin_init_number (w : World) (n : Nat) (d : String) (cb : Option Nat)
    (ed : Option String) (al : Nat) (p : Pin) (tr : List Event)
    (h : Pin.init w n d cb ed al = (.ok p, tr)) : p.number = n := by
  unfold Pin.init at h
  repeat' split at h
  all_goals
    injection h with h1 h2
  all_goals
    first
    | (injection h1 with h3
       subst h3
       rfl)
    | injection h1

theorem alloc_pin_preserves_inv (w : World) (s : CState) (n : Nat) (d : String)
    (cb : Option Nat) (ed : Option String) (al : Nat)
    (hinv : RegistryInv s) :
    RegistryInv ((Controller.alloc_pin w s n d cb ed al).2.1) := by
  unfold Controller.alloc_pin
  repeat' split
  all_goals try exact hinv
  all_goals
    rename_i pin tr1 hinit x2 s1 tr2 heq
    have hs1 : s1.allocated = s.allocated := by
      split at heq <;> (injection heq with e1 e2; rw [← e1])
    intro np hnp
    dsimp only at hnp
    rw [hs1] at hnp
    exact registryInv_mapInsert s.allocated n pin hinv
      (pin_init_number w n d cb ed al pin tr1 hinit) np hnp

theorem dealloc_pin_preserves_inv (w : World) (s : CState) (n : Nat)
    (hinv : RegistryInv s) :
    RegistryInv ((Controller.dealloc_pin w s n).2.1) := by
  unfold Controller.dealloc_pin
  repeat' split
  all_goals try exact hinv
  all_goals
    rename_i pin hlook x2 s1 tr2 heq
    have hs1 : s1.allocated = s.allocated := by
      split at heq <;> (injection heq with e1 e2; rw [← e1])
    intro np hnp
    dsimp only at hnp
    rw [hs1] at hnp
    exact hinv np (mapErase_subset s.allocated n np hnp)

theorem stop_foldl_preserves_inv (w : World) (keys : List Nat)
    (acc : CState × List Event) (hinv : RegistryInv acc.1) :
    RegistryInv ((keys.foldl
      (fun acc n =>
        let r := Controller.dealloc_pin w acc.1 n
        (r.2.1, acc.2 ++ r.2.2)) acc).1) := by
  induction keys generalizing acc with
  | nil => exact hinv
  | cons k rest ih =>
    rw [List.foldl_cons]
    exact ih _ (dealloc_pin_preserves_inv w acc.1 k hinv)

/-- C9: the registry invariant — every key of the allocated map stores a pin
whose `number` attribute equals that key — is preserved by `alloc_pin`,
`dealloc_pin` and `stop`.  (Pins are immutable records apart from the
callback field, mirroring the source's read-only `number` and `direction`
properties, so stored numbers and directions never change after
construction.) -/
theorem registry_inv_preserved (w : World) (s : CState) (hinv : RegistryInv s) :
    (∀ n d cb ed al, RegistryInv ((Controller.alloc_pin w s n d cb ed al).2.1)) ∧
    (∀ n, RegistryInv ((Controller.dealloc_pin w s n).2.1)) ∧
    RegistryInv ((Controller.stop w s).1) := by
  refine ⟨fun n d cb ed al => alloc_pin_preserves_inv w s n d cb ed al hinv,
          fun n => dealloc_pin_preserves_inv w s n hinv, ?_⟩
  unfold Controller.stop
  exact stop_foldl_preserves_inv w _ _ hinv

/-- C9 witness: the invariant holds of the concrete state with pin 17
allocated, and is preserved by a concrete allocation, deallocation and
stop. -/
theorem registry_inv_preserved_witness :
    RegistryInv s17 ∧
    RegistryInv ((Controller.alloc_pin w0 s17 4 OUTPUT none none 0).2.1) ∧
    RegistryInv ((Controller.dealloc_pin w0 s17 17).2.1) ∧
    RegistryInv ((Controller.stop w0 s17).1) := by
  have hinv : RegistryInv s17 := by
    intro np hnp
    rcases List.mem_cons.mp hnp with rfl | hnp'
    · rfl
    · cases hnp'
  have h := registry_inv_preserved w0 s17 hinv
  exact ⟨hinv, h.1 4 OUTPUT none none 0, h.2.1 17, h.2.2⟩

end SysfsGpio
